import Mathlib

/-!
Verification of the SourceInfo weighted scoring engine and
counternarrative-selection logic (`api/scoring.py`, `api/database.py`,
`api/routes/sources.py`), as a shallow embedding.

Modelling conventions:
* Python `Optional[float]` credibility scores become `Option ℚ`
  (the code only adds small integers to scores and compares against
  integer thresholds, so rationals model the arithmetic exactly).
* Python `Optional[int]` political leans become `Option ℤ`.
* Source types, claim types, evidence roles and tiers are the `String`s
  the code compares against.
* The SQLite table is a `List Source` in storage (scan) order; a query
  without `ORDER BY` yields rows in that order, `fetchone` is `head?`,
  `ORDER BY newsguard_score DESC` is a sort whose key treats SQL `NULL`
  as the bottom element (`WithBot ℚ`), and `LIMIT` is `List.take`.
  SQL comparisons against `NULL` are three-valued and collapse to
  "not selected" in a `WHERE` clause; the row predicates below return
  `false` on `none` accordingly.
* SQLite `LIKE '%q%'` is ASCII-case-insensitive substring containment.
* The human-readable `explanation` string and the `criteria_json`
  pass-through are display-only and not referenced by any claim; they
  are omitted from the embedding.
-/

namespace SourceInfo

/-- One row of the `sources` table, restricted to the columns the scoring
engine and the counternarrative queries read
(`domain, name, newsguard_score, political_lean, political_lean_label,
source_type, description`). -/
structure Source where
  domain : String
  name : String
  newsguard_score : Option ℚ
  political_lean : Option ℤ
  political_lean_label : String
  source_type : Option String
  description : String
deriving DecidableEq, Repr

/-- `api/models.py::ScoringBreakdown` (numeric fields; the display-only
`explanation` string is omitted). -/
structure ScoringBreakdown where
  credibility_score : ℚ
  bias_penalty : ℚ
  type_bonus : ℚ
deriving DecidableEq, Repr

/-- `api/scoring.py::get_credibility_tier`. -/
def get_credibility_tier (score : Option ℚ) : String :=
  match score with
  | none => "unknown"
  | some s =>
    if 80 ≤ s then "high"
    else if 60 ≤ s then "medium"
    else "low"

/-- `api/scoring.py::calculate_type_bonus`.  Python's `if not source_type`
is true for `None` and for the empty string. -/
def calculate_type_bonus (source_type : Option String) (claim_type : String) : ℚ :=
  match source_type with
  | none => 0
  | some st =>
    if st = "" then 0
    else if st = "fact_check" then 10
    else if st = "think_tank" ∨ st = "think_tank___policy_group" then
      if claim_type = "political" ∨ claim_type = "economic" ∨ claim_type = "foreign_policy"
      then 5 else 2
    else if st = "wire_service" then 5
    else if st = "trade_publication" then 3
    else 0

/-- `api/scoring.py::calculate_bias_penalty`. -/
def calculate_bias_penalty (political_lean : Option ℤ) (evidence_role : String) : ℚ :=
  match political_lean with
  | none => 0
  | some l =>
    if evidence_role = "counternarrative" then 0
    else if evidence_role = "support" ∨ evidence_role = "refute" then 0
    else if evidence_role = "neutral" then
      if l.natAbs = 2 then -10
      else if l.natAbs = 1 then -5
      else 0
    else 0

/-- The base credibility actually used by `calculate_weighted_score`:
`50` exactly when the score is `None` (`if base_credibility is None`). -/
def baseOrFifty (base_credibility : Option ℚ) : ℚ :=
  match base_credibility with
  | none => 50
  | some b => b

/-- Python's `base_credibility or 50`, used for the *breakdown* field in
`calculate_weighted_score`: `0` is falsy in Python, so a present score of
`0` also yields `50` here. -/
def pyOrFifty (base_credibility : Option ℚ) : ℚ :=
  match base_credibility with
  | none => 50
  | some b => if b = 0 then 50 else b

/-- Python's built-in `min` on two rationals. -/
def qMin (a b : ℚ) : ℚ := if a ≤ b then a else b

/-- Python's built-in `max` on two rationals. -/
def qMax (a b : ℚ) : ℚ := if b ≤ a then a else b

/-- `api/scoring.py::calculate_weighted_score` (numeric results; the
explanation string is display-only and omitted).  The clamp is the code's
`max(0, min(100, weighted_score))`. -/
def calculate_weighted_score (base_credibility : Option ℚ) (source_type : Option String)
    (political_lean : Option ℤ) (claim_type : String) (evidence_role : String) :
    ℚ × ScoringBreakdown :=
  let type_bonus := calculate_type_bonus source_type claim_type
  let bias_penalty := calculate_bias_penalty political_lean evidence_role
  let weighted_score := qMax 0 (qMin 100 (baseOrFifty base_credibility + type_bonus + bias_penalty))
  (weighted_score,
   { credibility_score := pyOrFifty base_credibility
     bias_penalty := bias_penalty
     type_bonus := type_bonus })

/-- `api/scoring.py::get_recommendation`. -/
def get_recommendation (weighted_score : ℚ) (credibility_tier : String) : String :=
  if credibility_tier = "unknown" then "use_with_caution"
  else if 80 ≤ weighted_score then "strong"
  else if 60 ≤ weighted_score then "acceptable"
  else if 40 ≤ weighted_score then "use_with_caution"
  else "not_recommended"

/-- The evidence-context parameters read by `score_source_for_context`
(`claim_type`, `evidence_role`). -/
structure Context where
  claim_type : String
  evidence_role : String
deriving DecidableEq, Repr

/-- Floor of a rational, computed directly (`num ⌊/⌋ den`). -/
def ratFloor (q : ℚ) : ℤ := Int.fdiv q.num q.den

/-- Round-half-to-even on ℚ (idealisation of Python's `round`). -/
def roundHalfEven (q : ℚ) : ℤ :=
  if q - ratFloor q < 1/2 then ratFloor q
  else if 1/2 < q - ratFloor q then ratFloor q + 1
  else if ratFloor q % 2 = 0 then ratFloor q else ratFloor q + 1

/-- Python's `round(x, 1)` over the rational model. -/
def pyRoundOne (q : ℚ) : ℚ := (roundHalfEven (q * 10) : ℚ) / 10

/-- Result record of `score_source_for_context`. -/
structure ScoreResult where
  weighted_score : ℚ
  scoring_breakdown : ScoringBreakdown
  recommendation : String
  credibility_tier : String
deriving DecidableEq, Repr

/-- `api/scoring.py::score_source_for_context`.  The tier is computed from
`source.newsguard_score` (the original score), and the recommendation from
the unrounded weighted score; only the returned `weighted_score` field is
rounded to one decimal. -/
def score_source_for_context (source : Source) (context : Option Context) : ScoreResult :=
  let claim_type := match context with | none => "general" | some c => c.claim_type
  let evidence_role := match context with | none => "neutral" | some c => c.evidence_role
  let wb := calculate_weighted_score source.newsguard_score source.source_type
    source.political_lean claim_type evidence_role
  let tier := get_credibility_tier source.newsguard_score
  { weighted_score := pyRoundOne wb.1
    scoring_breakdown := wb.2
    recommendation := get_recommendation wb.1 tier
    credibility_tier := tier }

/-! ### Database layer (`api/database.py`) -/

/-- ASCII lower-casing on code points (`A`–`Z` shift by 32). -/
def lowerNat (n : ℕ) : ℕ :=
  if 65 ≤ n ∧ n ≤ 90 then n + 32 else n

/-- ASCII-case-insensitive character equality (SQLite's `LIKE` folding). -/
def eqIgnoreCase (c d : Char) : Bool :=
  lowerNat c.toNat == lowerNat d.toNat

/-- `charsStartWith pat hay`: `pat` is a case-insensitive prefix of `hay`. -/
def charsStartWith : List Char → List Char → Bool
  | [], _ => true
  | _ :: _, [] => false
  | c :: cs, d :: ds => eqIgnoreCase c d && charsStartWith cs ds

/-- `charsContain pat hay`: `pat` occurs case-insensitively as a contiguous
run inside `hay`. -/
def charsContain (pat : List Char) : List Char → Bool
  | [] => pat.isEmpty
  | c :: cs => charsStartWith pat (c :: cs) || charsContain pat cs

/-- SQLite `stored LIKE '%' || q || '%'`: ASCII-case-insensitive substring
containment of `q` in `stored`. -/
def likeMatch (q stored : String) : Bool :=
  charsContain q.toList stored.toList

/-- `api/database.py::lookup_source`: exact-match query first, substring
(`LIKE`) fallback only when the exact query returns no row; `fetchone` /
`LIMIT 1` take the first row in storage order. -/
def lookup_source (db : List Source) (domain : String) : Option Source :=
  match (db.filter fun s => s.domain == domain).head? with
  | some row => some row
  | none => (db.filter fun s => likeMatch domain s.domain).head?

/-- `api/database.py::lookup_sources_bulk` composed with
`routes/sources.py::list_sources`' `list(result_dict.values())`: the
`WHERE domain IN (...)` scan returns matching rows in storage order, and
the insertion-ordered dict (domains are unique, the table's primary key)
preserves that scan order. -/
def lookup_sources_bulk (db : List Source) (domains : List String) : List Source :=
  db.filter fun s => domains.contains s.domain

/-- The resolution step of `find_counternarratives`: one query
`WHERE domain = ? OR domain LIKE ?` with `fetchone`, i.e. the first row in
storage order satisfying the disjunction (no exact-match priority). -/
def resolveRow (db : List Source) (domain : String) : Option Source :=
  (db.filter fun s => s.domain == domain || likeMatch domain s.domain).head?

/-- Python truthiness of the `preferred_leans` argument
(`if preferred_leans:`): `None` and the empty list both fail the test. -/
def prefLeans (preferred_leans : Option (List ℤ)) : Option (List ℤ) :=
  match preferred_leans with
  | none => none
  | some [] => none
  | some (l :: ls) => some (l :: ls)

/-- SQL `political_lean IN (...)` (`NULL` is never selected). -/
def leanIn (s : Source) (pl : List ℤ) : Bool :=
  match s.political_lean with
  | none => false
  | some l => pl.contains l

/-- SQL `political_lean != 0` (`NULL` is never selected). -/
def leanNonzero (s : Source) : Bool :=
  match s.political_lean with
  | none => false
  | some l => l != 0

/-- SQL `political_lean IS NOT NULL`. -/
def leanNotNull (s : Source) : Bool :=
  s.political_lean.isSome

/-- SQL `political_lean * L < 0` (`NULL` is never selected). -/
def oppSign (s : Source) (L : ℤ) : Bool :=
  match s.political_lean with
  | none => false
  | some l => decide (l * L < 0)

/-- SQL `newsguard_score >= min_credibility` (`NULL` is never selected). -/
def credOk (s : Source) (min_credibility : ℤ) : Bool :=
  match s.newsguard_score with
  | none => false
  | some v => decide ((min_credibility : ℚ) ≤ v)

/-- Sort key for `ORDER BY newsguard_score`: SQL `NULL` orders below every
value, i.e. `⊥` in `WithBot ℚ`.  (The counternarrative queries filter out
`NULL` scores before ordering, so `⊥` never actually ties.) -/
def scoreKey (s : Source) : WithBot ℚ :=
  match s.newsguard_score with
  | none => ⊥
  | some v => (v : WithBot ℚ)

/-- The comparison `ORDER BY newsguard_score DESC` sorts by. -/
def scoreDesc (a b : Source) : Prop :=
  scoreKey b ≤ scoreKey a

instance : DecidableRel scoreDesc := fun a b =>
  inferInstanceAs (Decidable (scoreKey b ≤ scoreKey a))

instance : IsTotal Source scoreDesc :=
  ⟨fun a b => (le_total (scoreKey b) (scoreKey a)).imp id id⟩

instance : IsTrans Source scoreDesc :=
  ⟨fun _ _ _ h h' => le_trans h' h⟩

/-- `ORDER BY newsguard_score DESC ... LIMIT limit`. -/
def sortTake (rows : List Source) (limit : ℕ) : List Source :=
  (rows.insertionSort scoreDesc).take limit

/-- `api/database.py::find_counternarratives`. -/
def find_counternarratives (db : List Source) (domain : String) (min_credibility : ℤ)
    (limit : ℕ) (preferred_leans : Option (List ℤ)) : List Source :=
  match resolveRow db domain with
  | none => []
  | some row =>
    match row.political_lean with
    | none => []
    | some source_lean =>
      if source_lean = 0 then
        match prefLeans preferred_leans with
        | some pl =>
          sortTake (db.filter fun s => leanIn s pl && credOk s min_credibility) limit
        | none =>
          sortTake (db.filter fun s => leanNonzero s && credOk s min_credibility) limit
      else
        match prefLeans preferred_leans with
        | some pl =>
          sortTake (db.filter fun s =>
            leanIn s pl && oppSign s source_lean && credOk s min_credibility) limit
        | none =>
          sortTake (db.filter fun s =>
            leanNotNull s && oppSign s source_lean && credOk s min_credibility) limit

/-- The political lean of the source `find_counternarratives` resolves
`domain` to, when a row is found. -/
def resolveLean (db : List Source) (domain : String) : Option ℤ :=
  match resolveRow db domain with
  | none => none
  | some row => row.political_lean

/-! ### Helper lemmas -/

theorem qMax_qMin_nonneg (x : ℚ) : 0 ≤ qMax 0 (qMin 100 x) := by
  unfold qMax qMin
  split_ifs <;> linarith

theorem qMax_qMin_le_hundred (x : ℚ) : qMax 0 (qMin 100 x) ≤ 100 := by
  unfold qMax qMin
  split_ifs <;> linarith

/-! ### C1, C3, C4: the pure scoring calculators -/

/-- **C1.** For every source and evidence context, the weighted score equals
`clamp(base + type_bonus + bias_penalty, 0, 100)` (the code's
`max(0, min(100, ·))`), where the base is the credibility score when present
and 50 when absent; consequently the weighted score lies in `[0,100]` for
every input combination.  (The scorer is a total function, so it never
raises.) -/
theorem weighted_score_is_clamped_base_plus_adjustments
    (b : Option ℚ) (st : Option String) (pl : Option ℤ) (ct er : String) :
    (calculate_weighted_score b st pl ct er).1
        = qMax 0 (qMin 100 (baseOrFifty b + calculate_type_bonus st ct
            + calculate_bias_penalty pl er))
      ∧ 0 ≤ (calculate_weighted_score b st pl ct er).1
      ∧ (calculate_weighted_score b st pl ct er).1 ≤ 100
      ∧ baseOrFifty none = 50
      ∧ ∀ v : ℚ, baseOrFifty (some v) = v := by
  exact ⟨rfl, qMax_qMin_nonneg _, qMax_qMin_le_hundred _, rfl, fun v => rfl⟩

/-- **C3.** The bias penalty is 0 when the lean is absent or the evidence
role is counternarrative, support or refute; for neutral evidence it is −10
at lean magnitude 2, −5 at magnitude 1 and 0 at magnitude 0; it is symmetric
in the sign of the lean, and always lies in `[−10, 0]`. -/
theorem bias_penalty_by_role_magnitude_symmetric_bounded
    (l : Option ℤ) (er : String) (z : ℤ) :
    calculate_bias_penalty l "counternarrative" = 0
      ∧ calculate_bias_penalty l "support" = 0
      ∧ calculate_bias_penalty l "refute" = 0
      ∧ calculate_bias_penalty none er = 0
      ∧ calculate_bias_penalty (some z) "neutral"
          = (if z.natAbs = 2 then -10 else if z.natAbs = 1 then -5 else 0)
      ∧ calculate_bias_penalty (some z) "neutral"
          = calculate_bias_penalty (some (-z)) "neutral"
      ∧ -10 ≤ calculate_bias_penalty l er
      ∧ calculate_bias_penalty l er ≤ 0 := by
  refine ⟨?_, ?_, ?_, rfl, rfl, ?_, ?_, ?_⟩
  · cases l <;> rfl
  · cases l <;> rfl
  · cases l <;> rfl
  · simp [calculate_bias_penalty, Int.natAbs_neg]
  · cases l with
    | none => simp [calculate_bias_penalty]
    | some w =>
      simp only [calculate_bias_penalty]
      split_ifs <;> norm_num
  · cases l with
    | none => simp [calculate_bias_penalty]
    | some w =>
      simp only [calculate_bias_penalty]
      split_ifs <;> norm_num

/-- **C4.** The type bonus is a total pure lookup in `[0,10]`: absent type
gives 0, `fact_check` gives 10 for every claim type, the think-tank types
give 5 on political/economic/foreign-policy claims and 2 otherwise,
`wire_service` gives 5, `trade_publication` gives 3, and every other type
gives 0 (no error on unknown types). -/
theorem type_bonus_total_lookup_bounded (st : Option String) (ct : String) :
    0 ≤ calculate_type_bonus st ct
      ∧ calculate_type_bonus st ct ≤ 10
      ∧ calculate_type_bonus none ct = 0
      ∧ calculate_type_bonus (some "fact_check") ct = 10
      ∧ calculate_type_bonus (some "think_tank") ct
          = (if ct = "political" ∨ ct = "economic" ∨ ct = "foreign_policy" then 5 else 2)
      ∧ calculate_type_bonus (some "think_tank___policy_group") ct
          = (if ct = "political" ∨ ct = "economic" ∨ ct = "foreign_policy" then 5 else 2)
      ∧ calculate_type_bonus (some "wire_service") ct = 5
      ∧ calculate_type_bonus (some "trade_publication") ct = 3
      ∧ ∀ s : String,
          s ∉ (["fact_check", "think_tank", "think_tank___policy_group",
                "wire_service", "trade_publication"] : List String) →
            calculate_type_bonus (some s) ct = 0 := by
  refine ⟨?_, ?_, rfl, rfl, ?_, ?_, rfl, rfl, ?_⟩
  · cases st with
    | none => simp [calculate_type_bonus]
    | some s =>
      simp only [calculate_type_bonus]
      split_ifs <;> norm_num
  · cases st with
    | none => simp [calculate_type_bonus]
    | some s =>
      simp only [calculate_type_bonus]
      split_ifs <;> norm_num
  · rfl
  · rfl
  · intro s hs
    simp only [List.mem_cons, List.not_mem_nil, or_false] at hs
    push_neg at hs
    obtain ⟨h1, h2, h3, h4, h5⟩ := hs
    simp [calculate_type_bonus, h1, h2, h3, h4, h5]

/-- Witness for C4: an unrecognized source type (`news_media`) gets bonus 0. -/
theorem type_bonus_total_lookup_bounded_witness :
    calculate_type_bonus (some "news_media") "general" = 0 :=
  (type_bonus_total_lookup_bounded (some "news_media") "general").2.2.2.2.2.2.2.2
    "news_media" (by decide)

/-! ### C2: tier and recommendation in `score_source_for_context` -/

theorem recommendation_of_tier_formula (w : ℚ) (s : Option ℚ) :
    get_recommendation w (get_credibility_tier s)
      = (if s = none then "use_with_caution"
         else if 80 ≤ w then "strong"
         else if 60 ≤ w then "acceptable"
         else if 40 ≤ w then "use_with_caution"
         else "not_recommended") := by
  cases s with
  | none => rfl
  | some v =>
    have hne : (some v : Option ℚ) ≠ none := by simp
    rw [if_neg hne]
    simp only [get_credibility_tier, get_recommendation]
    split_ifs <;> simp_all

/-- **C2.** The credibility tier is classified from the original
credibility score, not the weighted one (absent → `unknown`, ≥ 80 → `high`,
60–80 → `medium`, < 60 → `low`); the recommendation is `use_with_caution`
whenever the score is absent (tier `unknown`), regardless of the weighted
score, and otherwise follows the 80/60/40 thresholds on the weighted score
(the unrounded score the code passes to `get_recommendation`). -/
theorem tier_from_original_score_and_recommendation_thresholds
    (source : Source) (context : Option Context) :
    (score_source_for_context source context).credibility_tier
        = (match source.newsguard_score with
           | none => "unknown"
           | some v => if 80 ≤ v then "high" else if 60 ≤ v then "medium" else "low")
      ∧ (score_source_for_context source context).recommendation
        = (if source.newsguard_score = none then "use_with_caution"
           else if 80 ≤ (calculate_weighted_score source.newsguard_score source.source_type
                source.political_lean
                (match context with | none => "general" | some c => c.claim_type)
                (match context with | none => "neutral" | some c => c.evidence_role)).1
             then "strong"
           else if 60 ≤ (calculate_weighted_score source.newsguard_score source.source_type
                source.political_lean
                (match context with | none => "general" | some c => c.claim_type)
                (match context with | none => "neutral" | some c => c.evidence_role)).1
             then "acceptable"
           else if 40 ≤ (calculate_weighted_score source.newsguard_score source.source_type
                source.political_lean
                (match context with | none => "general" | some c => c.claim_type)
                (match context with | none => "neutral" | some c => c.evidence_role)).1
             then "use_with_caution"
           else "not_recommended") := by
  constructor
  · rcases hs : source.newsguard_score with _ | v <;>
      simp [score_source_for_context, get_credibility_tier, hs]
  · have h0 : (score_source_for_context source context).recommendation
        = get_recommendation
            (calculate_weighted_score source.newsguard_score source.source_type
              source.political_lean
              (match context with | none => "general" | some c => c.claim_type)
              (match context with | none => "neutral" | some c => c.evidence_role)).1
            (get_credibility_tier source.newsguard_score) := rfl
    rw [h0, recommendation_of_tier_formula]
    norm_cast

/-! ### Lemmas about the counternarrative pipeline -/

/-- `find_counternarratives`, branch-normalised through `resolveLean`. -/
theorem fc_eq (db : List Source) (q : String) (mc : ℤ) (lim : ℕ)
    (pls : Option (List ℤ)) :
    find_counternarratives db q mc lim pls =
      match resolveLean db q with
      | none => []
      | some L =>
        if L = 0 then
          match prefLeans pls with
          | some pl => sortTake (db.filter fun s => leanIn s pl && credOk s mc) lim
          | none => sortTake (db.filter fun s => leanNonzero s && credOk s mc) lim
        else
          match prefLeans pls with
          | some pl =>
            sortTake (db.filter fun s => leanIn s pl && oppSign s L && credOk s mc) lim
          | none =>
            sortTake (db.filter fun s => leanNotNull s && oppSign s L && credOk s mc) lim := by
  unfold find_counternarratives resolveLean
  cases resolveRow db q with
  | none => rfl
  | some row =>
    cases row.political_lean with
    | none => rfl
    | some L => rfl

theorem prefLeans_of_ne_nil {pl : List ℤ} (h : pl ≠ []) :
    prefLeans (some pl) = some pl := by
  cases pl with
  | nil => exact absurd rfl h
  | cons a as => rfl

theorem sorted_sortTake (rows : List Source) (lim : ℕ) :
    (sortTake rows lim).Sorted scoreDesc := by
  have h := List.sorted_insertionSort scoreDesc rows
  exact List.Pairwise.sublist (List.take_sublist _ _) h

theorem length_sortTake (rows : List Source) (lim : ℕ) :
    (sortTake rows lim).length ≤ lim := by
  simp [sortTake]

theorem mem_of_mem_sortTake {rows : List Source} {lim : ℕ} {c : Source}
    (hc : c ∈ sortTake rows lim) : c ∈ rows := by
  have h1 : c ∈ rows.insertionSort scoreDesc := List.take_subset _ _ hc
  exact ((List.perm_insertionSort scoreDesc rows).mem_iff).1 h1

theorem pred_of_mem_sortTake_filter {db : List Source} {p : Source → Bool} {lim : ℕ}
    {c : Source} (hc : c ∈ sortTake (db.filter p) lim) : c ∈ db ∧ p c = true := by
  have h1 := mem_of_mem_sortTake hc
  exact List.mem_filter.1 h1

theorem oppSign_spec {c : Source} {L : ℤ} (h : oppSign c L = true) :
    ∃ l : ℤ, c.political_lean = some l ∧ L * l < 0 := by
  unfold oppSign at h
  cases hcl : c.political_lean with
  | none => rw [hcl] at h; exact absurd h (by simp)
  | some l =>
    rw [hcl] at h
    refine ⟨l, rfl, ?_⟩
    have := of_decide_eq_true h
    linarith [this]

theorem credOk_spec {c : Source} {mc : ℤ} (h : credOk c mc = true) :
    ∃ v : ℚ, c.newsguard_score = some v ∧ (mc : ℚ) ≤ v := by
  unfold credOk at h
  cases hcs : c.newsguard_score with
  | none => rw [hcs] at h; exact absurd h (by simp)
  | some v =>
    rw [hcs] at h
    exact ⟨v, rfl, of_decide_eq_true h⟩

/-! ### C6: guarantees for non-center counternarrative queries -/

/-- **C6.** When the resolved source has non-zero lean `L`, every returned
counternarrative has a present lean of opposite sign (`L * l < 0`), a
present credibility score at least `min_credibility` (rows with `NULL`
score are never returned), and the result list is ordered by credibility
score descending with length at most `limit`. -/
theorem counternarratives_opposite_sign_credible_sorted_capped
    (db : List Source) (q : String) (mc : ℤ) (lim : ℕ) (pls : Option (List ℤ))
    (L : ℤ) (hres : resolveLean db q = some L) (hL : L ≠ 0) :
    (∀ c ∈ find_counternarratives db q mc lim pls,
        (∃ l : ℤ, c.political_lean = some l ∧ L * l < 0)
          ∧ ∃ v : ℚ, c.newsguard_score = some v ∧ (mc : ℚ) ≤ v)
      ∧ (find_counternarratives db q mc lim pls).Sorted scoreDesc
      ∧ (find_counternarratives db q mc lim pls).length ≤ lim := by
  simp only [fc_eq db q mc lim pls, hres, if_neg hL]
  cases hpl : prefLeans pls with
  | some pl =>
    simp only [hpl]
    refine ⟨?_, sorted_sortTake _ _, length_sortTake _ _⟩
    intro c hc
    obtain ⟨-, hp⟩ := pred_of_mem_sortTake_filter hc
    simp only [Bool.and_eq_true] at hp
    exact ⟨oppSign_spec hp.1.2, credOk_spec hp.2⟩
  | none =>
    simp only [hpl]
    refine ⟨?_, sorted_sortTake _ _, length_sortTake _ _⟩
    intro c hc
    obtain ⟨-, hp⟩ := pred_of_mem_sortTake_filter hc
    simp only [Bool.and_eq_true] at hp
    exact ⟨oppSign_spec hp.1.2, credOk_spec hp.2⟩

/-! ### C5: what `preferred_leans` actually does -/

/-- **C5 (amended).** When `preferred_leans` is supplied and non-empty and
the resolved source has non-zero lean, the allow-list membership test is
applied *in conjunction with* (not instead of) the sign-based opposite-side
test: every returned source passes membership, opposite sign, and the
credibility floor.  Same-side leans therefore cannot be forced for
non-center sources. -/
theorem preferred_leans_intersects_sign_test_for_noncenter
    (db : List Source) (q : String) (mc : ℤ) (lim : ℕ) (pl : List ℤ) (L : ℤ)
    (hpl : pl ≠ []) (hres : resolveLean db q = some L) (hL : L ≠ 0) :
    ∀ c ∈ find_counternarratives db q mc lim (some pl),
      leanIn c pl = true ∧ oppSign c L = true ∧ credOk c mc = true := by
  simp only [fc_eq db q mc lim (some pl), hres, if_neg hL, prefLeans_of_ne_nil hpl]
  intro c hc
  obtain ⟨-, hp⟩ := pred_of_mem_sortTake_filter hc
  simp only [Bool.and_eq_true] at hp
  exact ⟨hp.1.1, hp.1.2, hp.2⟩

/-! ### C10: center sources with an explicit allow-list -/

/-- **C10.** When the resolved source's lean is 0 (Center) and a non-empty
`preferred_leans` list is supplied, the candidate filter is exactly
allow-list membership plus the credibility floor — there is no non-zero-lean
restriction, so with `0 ∈ preferred_leans` Center sources (the queried
source included) can appear in the result. -/
theorem center_with_preferred_leans_filters_membership_only
    (db : List Source) (q : String) (mc : ℤ) (lim : ℕ) (pl : List ℤ)
    (hres : resolveLean db q = some 0) (hpl : pl ≠ []) :
    find_counternarratives db q mc lim (some pl)
        = sortTake (db.filter fun s => leanIn s pl && credOk s mc) lim
      ∧ ∀ c ∈ find_counternarratives db q mc lim (some pl),
          leanIn c pl = true ∧ credOk c mc = true := by
  have heq : find_counternarratives db q mc lim (some pl)
      = sortTake (db.filter fun s => leanIn s pl && credOk s mc) lim := by
    simp only [fc_eq db q mc lim (some pl), hres, eq_self_iff_true, if_true,
      prefLeans_of_ne_nil hpl]
  refine ⟨heq, ?_⟩
  rw [heq]
  intro c hc
  obtain ⟨-, hp⟩ := pred_of_mem_sortTake_filter hc
  simp only [Bool.and_eq_true] at hp
  exact hp

/-! ### C7: bulk lookup ordering -/

/-- **C7 (amended).** The bulk lookup returns exactly the stored rows whose
domain is in the requested list, in repository storage (scan) order — a
sublist of the table — not in the caller-specified input order; requested
domains with no matching row are silently omitted. -/
theorem bulk_lookup_storage_order_characterization (db : List Source) (ds : List String) :
    (lookup_sources_bulk db ds).Sublist db
      ∧ ∀ s : Source,
          s ∈ lookup_sources_bulk db ds ↔ s ∈ db ∧ ds.contains s.domain = true :=
  ⟨List.filter_sublist _, fun _ => List.mem_filter⟩

/-! ### C9: exact-match priority in domain resolution -/

/-- **C9 (amended).** `lookup_source` does prefer the exact match: whenever
some stored row's domain equals the query exactly, the returned row is an
exact match (the substring fallback never runs).  The resolution step of
`find_counternarratives`, by contrast, issues a single exact-or-substring
query and takes the first matching row in storage order, which can be a
substring match even when an exact match exists (see the counterexample). -/
theorem lookup_source_prefers_exact_match (db : List Source) (d : String)
    (h : ∃ s ∈ db, s.domain = d) :
    ∃ s : Source, lookup_source db d = some s ∧ s.domain = d := by
  obtain ⟨s0, hs0, hdom⟩ := h
  have hmem : s0 ∈ db.filter (fun s => s.domain == d) :=
    List.mem_filter.2 ⟨hs0, by simp [hdom]⟩
  have hne : db.filter (fun s => s.domain == d) ≠ [] := List.ne_nil_of_mem hmem
  have h1 : (db.filter fun s => s.domain == d).head?
      = some ((db.filter fun s => s.domain == d).head hne) := List.head?_eq_head hne
  have hrmem : (db.filter fun s => s.domain == d).head hne
      ∈ db.filter (fun s => s.domain == d) := List.head_mem hne
  have hrd : ((db.filter fun s => s.domain == d).head hne).domain = d := by
    have h2 := (List.mem_filter.1 hrmem).2
    simpa using h2
  refine ⟨(db.filter fun s => s.domain == d).head hne, ?_, hrd⟩
  unfold lookup_source
  rw [h1]

/-! ### Concrete repositories for counterexamples and witnesses -/

def srcQRight : Source := ⟨"q.com", "Q", some 80, some 1, "Lean Right", none, ""⟩

def srcSameRight : Source := ⟨"same.com", "S", some 90, some 1, "Lean Right", none, ""⟩

def srcOppLeft : Source := ⟨"opp.com", "O", some 90, some (-1), "Lean Left", none, ""⟩

/-- A repository whose queried source leans right (+1), with one same-side
and one opposite-side candidate, both above the credibility floor. -/
def dbPref : List Source := [srcQRight, srcSameRight, srcOppLeft]

def srcBRow : Source := ⟨"b.com", "B", some 70, none, "", none, ""⟩

def srcARow : Source := ⟨"a.com", "A", some 95, none, "", none, ""⟩

/-- A repository stored in the order `b.com, a.com`. -/
def dbBulk : List Source := [srcBRow, srcARow]

def srcFuzzy : Source := ⟨"news-a.com", "NA", some 70, some 1, "Lean Right", none, ""⟩

def srcExact : Source := ⟨"a.com", "A2", some 95, some (-1), "Lean Left", none, ""⟩

/-- A repository in which a substring match (`news-a.com` contains `a.com`)
precedes the exact match for the query `a.com` in storage order. -/
def dbResolve : List Source := [srcFuzzy, srcExact]

def srcCenter : Source := ⟨"c.com", "C", some 90, some 0, "Center", none, ""⟩

def srcRightHigh : Source := ⟨"r.com", "R", some 85, some 1, "Lean Right", none, ""⟩

/-- A repository whose queried source is Center (lean 0). -/
def dbCenter : List Source := [srcCenter, srcRightHigh]

attribute [local semireducible] Rat.add Rat.sub Rat.mul Rat.inv

/-! ### Counterexamples -/

/-- **C5 counterexample.** With `preferred_leans = [1]` on a source resolved
to lean `+1`, the same-side candidate `same.com` (lean 1 ∈ [1], score
90 ≥ 60) is *not* returned — the result is empty, because the sign-based
opposite-side test is still applied in conjunction with the allow-list.
Under the claim (membership replaces the sign test) it would be returned. -/
theorem preferred_leans_cannot_force_same_side_cex :
    resolveLean dbPref "q.com" = some 1
      ∧ srcSameRight ∈ dbPref
      ∧ leanIn srcSameRight [1] = true
      ∧ credOk srcSameRight 60 = true
      ∧ find_counternarratives dbPref "q.com" 60 10 (some [1]) = [] := by
  decide

/-- **C7 counterexample.** Requesting `["a.com", "b.com"]` against a table
stored in the order `b.com, a.com` returns the rows in storage order
`["b.com", "a.com"]`, not in the caller-specified order. -/
theorem bulk_lookup_not_input_order_cex :
    (lookup_sources_bulk dbBulk ["a.com", "b.com"]).map Source.domain = ["b.com", "a.com"]
      ∧ (["b.com", "a.com"] : List String) ≠ ["a.com", "b.com"] := by
  decide

/-- **C9 counterexample.** Querying `a.com` when the substring match
`news-a.com` precedes the exact match `a.com` in storage order:
`lookup_source` returns the exact match, but the resolution step of
`find_counternarratives` returns the substring match — so its resolved
lean is `+1` although the exact-matching source leans `−1`. -/
theorem find_counternarratives_resolution_not_exact_first_cex :
    lookup_source dbResolve "a.com" = some srcExact
      ∧ resolveRow dbResolve "a.com" = some srcFuzzy
      ∧ resolveLean dbResolve "a.com" = some 1
      ∧ srcExact.political_lean = some (-1)
      ∧ srcFuzzy ≠ srcExact := by
  decide

/-! ### C8: the breakdown's base-credibility field on a present zero score -/

/-- **C8 (failing input).** For a present credibility score of `0`, the
weighted score is computed from base `0` (the clamped result is `0`), yet
the breakdown's `credibility_score` field — Python's
`base_credibility or 50` — reports `50`.  The claim (the breakdown field
equals the base actually used, with `50` only when the score is absent)
is the intended behaviour; the code's use of `or` on a falsy `0` is the
slip. -/
theorem breakdown_reports_fifty_for_present_zero_score :
    (calculate_weighted_score (some 0) none none "general" "neutral").1 = 0
      ∧ (calculate_weighted_score (some 0) none none "general" "neutral").2.credibility_score = 50
      ∧ baseOrFifty (some 0) = 0
      ∧ pyOrFifty (some 0) = 50 := by
  decide

/-! ### Witnesses -/

/-- Witness for C5 (amended): with `preferred_leans = [-1]` the returned
opposite-side source passes membership, opposite sign and the floor. -/
theorem preferred_leans_intersects_sign_test_for_noncenter_witness :
    leanIn srcOppLeft [-1] = true ∧ oppSign srcOppLeft 1 = true ∧ credOk srcOppLeft 60 = true :=
  preferred_leans_intersects_sign_test_for_noncenter dbPref "q.com" 60 10 [-1] 1
    (by decide) (by decide) (by decide) srcOppLeft (by decide)

/-- Witness for C6 at a concrete non-center repository. -/
theorem counternarratives_opposite_sign_credible_sorted_capped_witness :
    (find_counternarratives dbPref "q.com" 60 10 none).length ≤ 10
      ∧ (find_counternarratives dbPref "q.com" 60 10 none).Sorted scoreDesc := by
  have h := counternarratives_opposite_sign_credible_sorted_capped dbPref "q.com" 60 10 none 1
    (by decide) (by decide)
  exact ⟨h.2.2, h.2.1⟩

/-- Witness for C7 (amended) at a concrete repository. -/
theorem bulk_lookup_storage_order_characterization_witness :
    (lookup_sources_bulk dbBulk ["a.com"]).Sublist dbBulk :=
  (bulk_lookup_storage_order_characterization dbBulk ["a.com"]).1

/-- Witness for C9 (amended): an exact match present in the repository is
what `lookup_source` returns. -/
theorem lookup_source_prefers_exact_match_witness :
    ∃ s : Source, lookup_source dbResolve "news-a.com" = some s
      ∧ s.domain = "news-a.com" :=
  lookup_source_prefers_exact_match dbResolve "news-a.com" ⟨srcFuzzy, by decide, rfl⟩

/-- Witness for C10: with `0 ∈ preferred_leans`, the queried Center source
itself appears in its own counternarrative list. -/
theorem center_with_preferred_leans_filters_membership_only_witness :
    srcCenter ∈ find_counternarratives dbCenter "c.com" 60 10 (some [0, 1]) := by
  have h := (center_with_preferred_leans_filters_membership_only dbCenter "c.com" 60 10 [0, 1]
    (by decide) (by decide)).1
  rw [h]
  decide

end SourceInfo
